import Mathlib

/-!
Verification of the dm-animate3d SDK core against its specification.

The development shallowly embeds the Python source of the SDK:
  * `src/dm/animate3d/error_codes.py`   (error-code resolver)
  * `src/dm/animate3d/data/params.py`   (ProcessParams wire encoding and copy)
  * `src/dm/animate3d/data/job_status.py` (status parsing)
  * `src/dm/animate3d/client.py` / `async_client.py` (_poll_job loop,
    job-start dispatch logic; the sync and async loops are line-for-line
    identical in the modelled fragment, so a single embedding covers both)

Conventions: Python `None` becomes `Option.none`; Python truthiness is made
explicit per type; the machine floats in the percent computation are
modelled bit-exactly: the two binary64 operations of
`math.ceil((step/total)*100)` — the division and the product — are each
embedded as correctly rounded (round-to-nearest, ties-to-even, 53-bit
mantissas with gradual underflow) in exact integer arithmetic, so e.g.
`(7/100)*100` yields `7.000000000000001` and a percent of 8, as CPython
does; wall-clock time in the poll loop is idealized so that the k-th poll
cycle observes elapsed time `k * poll_interval` (zero-cost requests and
callbacks, which is the reading under which the spec states its
`deadline + pollInterval` bound).
-/

namespace Animate3D

/-! ## Python value model for `exc_message` (error_codes.py) -/

/-- A Python value as it may appear in the `exc_message` field: a string,
an integer, a (possibly nested) list, or `None`. -/
inductive ExcVal where
  | vStr (s : String)
  | vInt (n : Int)
  | vList (xs : List ExcVal)
  | vNone

/-- Python `is None` test on an `ExcVal`. -/
def ExcVal.isNone : ExcVal → Bool
  | .vNone => true
  | _ => false

/-- The single-quote character as a string (ASCII 39). -/
def sq : String := String.singleton (Char.ofNat 39)

mutual

/-- Python `repr` of an `ExcVal` as used inside list display
(strings get single quotes). Quote characters inside strings are not
escaped; the repository only feeds quote-free strings through this path. -/
def pyRepr : ExcVal → String
  | .vStr s => sq ++ s ++ sq
  | .vInt n => toString n
  | .vList xs => "[" ++ String.intercalate ", " (pyReprList xs) ++ "]"
  | .vNone => "None"

/-- Mapping of `pyRepr` over a list (structural helper). -/
def pyReprList : List ExcVal → List String
  | [] => []
  | x :: xs => pyRepr x :: pyReprList xs

end

/-- Python `str()` of an `ExcVal` (top-level: strings print without quotes). -/
def pyStr : ExcVal → String
  | .vStr s => s
  | .vInt n => toString n
  | .vList xs => "[" ++ String.intercalate ", " (pyReprList xs) ++ "]"
  | .vNone => "None"

/-- Python truthiness of an `ExcVal` (`if exc_message:`). -/
def pyTruthyExc : ExcVal → Bool
  | .vStr s => s != ""
  | .vInt n => n != 0
  | .vList xs => !xs.isEmpty
  | .vNone => false

/-- Strip leading and trailing ASCII spaces from a character list. -/
def stripSpaces (cs : List Char) : List Char :=
  ((cs.dropWhile (fun c => c = ' ')).reverse.dropWhile (fun c => c = ' ')).reverse

/-- Python `int(s)` on a string: optional surrounding whitespace, optional
sign, then a non-empty digit run; `none` models the `ValueError` branch. -/
def pyParseIntStr (s : String) : Option Int :=
  let cs := stripSpaces s.toList
  let signDigits : Int × List Char :=
    match cs with
    | c :: rest =>
      if c = '-' then (-1, rest) else if c = '+' then (1, rest) else (1, cs)
    | [] => (1, [])
  let ds := signDigits.2
  if ds ≠ [] ∧ ds.all (fun c => c.isDigit) then
    some (signDigits.1 * Int.ofNat (ds.foldl (fun acc c => acc * 10 + (c.toNat - 48)) 0))
  else none

/-! ## error_codes.py -/

/-- The static error-code table `ERROR_CODES`. -/
def ERROR_CODES : List (Int × String) :=
  [ (101, "Not enough credits"),
    (201, "Error downloading the video or DM asset"),
    (202, "Error converting the video"),
    (503, "Error processing the parameters"),
    (504, "Error loading the character assets"),
    (505, "Physics Filter is incompatible with the custom characters"),
    (506, "Error creating the pose estimation"),
    (507, "Error while processing the body tracking"),
    (508, "Input video or image doesn" ++ sq ++ "t meet the requirements to generate animations of good quality"),
    (509, "Error loading the configurations"),
    (510, "Error open internal files"),
    (511, "Processing interrupted"),
    (513, "Failed to detect character in the video"),
    (599, "Body tracking timeout"),
    (701, "Error processing the face tracking"),
    (799, "Face tracking timeout"),
    (901, "Error loading the mesh of the custom character"),
    (902, "Error loading the BVH custom character"),
    (903, "Error copying animations onto the custom character"),
    (904, "Error exporting animations for the custom character"),
    (905, "Custom character doesn" ++ sq ++ "t include skinned mesh information"),
    (906, "More than half of the required blendshapes are missing"),
    (907, "Error loading facial definition for the custom character"),
    (908, "Error loading facial tracking data"),
    (909, "Error loading the metadata of the custom character"),
    (999, "Animation baking timeout"),
    (1301, "Error creating the hand estimation"),
    (1302, "Error creating the hand estimation"),
    (1303, "Error creating the hand estimation"),
    (1304, "Error opening the video"),
    (1305, "Error parsing video path"),
    (1306, "Error loading internal files"),
    (1307, "Error processing hand tracking"),
    (1308, "Error processing the video"),
    (1399, "Hand tracking timeout") ]

/-- Lookup in the static code table (`code_int in ERROR_CODES` / indexing). -/
def lookupCode (n : Int) : Option String :=
  ERROR_CODES.lookup n

/-- Embedding of `_parse_error_code`: int passes through, str is parsed, anything else is `None`. -/
def parse_error_code : ExcVal → Option Int
  | .vInt n => some n
  | .vStr s => pyParseIntStr s
  | _ => none

/-- Python truthiness of the parsed code (`if code_int and ...`):
`None` and `0` are falsy. -/
def isTruthyCode : Option Int → Bool
  | none => false
  | some n => n != 0

/-- Embedding of `get_error_message(error_code)` from error_codes.py. -/
def get_error_message (error_code : ExcVal) : String :=
  match error_code with
  | .vList xs =>
    if xs.isEmpty then "Unknown error"
    else
      String.intercalate "; " (xs.map (fun code =>
        let ci := parse_error_code code
        if isTruthyCode ci ∧ (ci.bind lookupCode).isSome then
          "Error " ++ toString (ci.getD 0) ++ ": " ++ (ci.bind lookupCode).getD ""
        else
          "Error " ++ pyStr code))
  | e =>
    let ci := parse_error_code e
    if isTruthyCode ci ∧ (ci.bind lookupCode).isSome then
      "Error " ++ toString (ci.getD 0) ++ ": " ++ (ci.bind lookupCode).getD ""
    else
      if e.isNone then "Unknown error" else pyStr e

/-- Embedding of `format_error_message(exc_message, exc_type)` from error_codes.py. -/
def format_error_message (exc_message : ExcVal) (exc_type : Option String) : String :=
  let message :=
    match exc_message with
    | .vList xs => String.intercalate "; " (xs.map get_error_message)
    | e =>
      if pyTruthyExc e then
        let parsed := parse_error_code e
        if isTruthyCode parsed ∧ (parsed.bind lookupCode).isSome then
          get_error_message (.vInt (parsed.getD 0))
        else pyStr e
      else "Unknown error"
  match exc_type with
  | some t => if t != "" then t ++ ": " ++ message else message
  | none => message

/-! ## data/params.py: ProcessParams and its wire encoding -/

/-- Embedding of `ProcessParams` (data/params.py), value-level model. Every Python field
defaulting to `None` becomes an `Option` with default `none`; `config`
defaults to `"configDefault"` as in the source. Python float fields are
modelled as exact rationals; their textual rendering is abstracted by
`pyNumStr` (the claims under verification never inspect numeric renderings). -/
structure ProcessParams where
  formats : Option (List String) := none
  model_id : Option String := none
  config : Option String := some "configDefault"
  sim : Option Int := none
  track_face : Option Int := none
  track_hand : Option Int := none
  foot_locking_mode : Option String := none
  video_speed_multiplier : Option Rat := none
  pose_filtering_strength : Option Rat := none
  upper_body_only : Option Bool := none
  root_at_origin : Option Bool := none
  trim : Option (Rat × Rat) := none
  crop : Option (Rat × Rat × Rat × Rat) := none
  render_sbs : Option Int := none
  render_bg_color : Option (Int × Int × Int × Int) := none
  render_backdrop : Option String := none
  render_shadow : Option Int := none
  render_include_audio : Option Int := none
  render_cam_mode : Option Int := none
  _models : Option (List (List (String × String))) := none
  _pipeline : Option String := none
deriving DecidableEq

/-- Python truthiness of an optional string (`if self.config:`):
`None` and the empty string are falsy. -/
def pyTruthyStrOpt : Option String → Bool
  | none => false
  | some s => s != ""

/-- Python truthiness of an optional list (`if self.formats:`):
`None` and the empty list are falsy. -/
def pyTruthyListOpt {α : Type} : Option (List α) → Bool
  | none => false
  | some l => !l.isEmpty

/-- Abstract rendering of a Python float value (exact value carried as `Rat`). -/
def pyNumStr (q : Rat) : String :=
  toString q.num ++ (if q.den = 1 then ".0" else "r" ++ toString q.den)

/-- Python `str(b).lower()` for a bool. -/
def pyBoolStr (b : Bool) : String :=
  if b then "true" else "false"

/-- JSON rendering of one model-assignment dict (insertion order preserved,
as `json.dumps` does for Python dicts). -/
def jsonDict (d : List (String × String)) : String :=
  "\x7b" ++ String.intercalate ", " (d.map (fun kv => "\"" ++ kv.1 ++ "\": \"" ++ kv.2 ++ "\"")) ++ "\x7d"

/-- Rendering via `json.dumps` of the `_models` list. -/
def jsonDictList (ms : List (List (String × String))) : String :=
  "[" ++ String.intercalate ", " (ms.map jsonDict) ++ "]"

/-- One `params.append(...)` guarded by a condition: one conditional entry. -/
def entryIf (b : Bool) (s : String) : List String :=
  if b then [s] else []

/-- Embedding of `ProcessParams.to_params_list` (data/params.py lines 74-152): the guarded
appends of the source, in source order, as a concatenation of conditional
singleton lists. -/
def ProcessParams.to_params_list (p : ProcessParams) : List String :=
  entryIf (pyTruthyStrOpt p.config) ("config=" ++ p.config.getD "")
  ++ entryIf (pyTruthyListOpt p.formats) ("formats=" ++ String.intercalate "," (p.formats.getD []))
  ++ entryIf (pyTruthyStrOpt p.model_id) ("model=" ++ p.model_id.getD "")
  ++ entryIf (pyTruthyListOpt p._models) ("models=" ++ jsonDictList (p._models.getD []))
  ++ entryIf p.sim.isSome ("sim=" ++ toString (p.sim.getD 0))
  ++ entryIf p.track_face.isSome ("trackFace=" ++ toString (p.track_face.getD 0))
  ++ entryIf p.track_hand.isSome ("trackHand=" ++ toString (p.track_hand.getD 0))
  ++ entryIf (pyTruthyStrOpt p.foot_locking_mode) ("footLockingMode=" ++ p.foot_locking_mode.getD "")
  ++ entryIf p.video_speed_multiplier.isSome ("videoSpeedMultiplier=" ++ pyNumStr (p.video_speed_multiplier.getD 0))
  ++ entryIf p.pose_filtering_strength.isSome ("poseFilteringStrength=" ++ pyNumStr (p.pose_filtering_strength.getD 0))
  ++ entryIf p.upper_body_only.isSome ("upperBodyOnly=" ++ pyBoolStr (p.upper_body_only.getD false))
  ++ entryIf p.root_at_origin.isSome ("rootAtOrigin=" ++ pyBoolStr (p.root_at_origin.getD false))
  ++ entryIf p.trim.isSome ("trim=" ++ pyNumStr (p.trim.getD (0, 0)).1 ++ "," ++ pyNumStr (p.trim.getD (0, 0)).2)
  ++ entryIf p.crop.isSome
      ("crop=" ++ pyNumStr (p.crop.getD (0, 0, 0, 0)).1 ++ "," ++ pyNumStr (p.crop.getD (0, 0, 0, 0)).2.1
        ++ "," ++ pyNumStr (p.crop.getD (0, 0, 0, 0)).2.2.1 ++ "," ++ pyNumStr (p.crop.getD (0, 0, 0, 0)).2.2.2)
  ++ entryIf p.render_sbs.isSome ("render.sbs=" ++ toString (p.render_sbs.getD 0))
  ++ entryIf p.render_bg_color.isSome
      ("render.bgColor=" ++ toString (p.render_bg_color.getD (0, 0, 0, 0)).1 ++ "," ++ toString (p.render_bg_color.getD (0, 0, 0, 0)).2.1
        ++ "," ++ toString (p.render_bg_color.getD (0, 0, 0, 0)).2.2.1 ++ "," ++ toString (p.render_bg_color.getD (0, 0, 0, 0)).2.2.2)
  ++ entryIf (pyTruthyStrOpt p.render_backdrop) ("render.backdrop=" ++ p.render_backdrop.getD "")
  ++ entryIf p.render_shadow.isSome ("render.shadow=" ++ toString (p.render_shadow.getD 0))
  ++ entryIf p.render_include_audio.isSome ("render.includeAudio=" ++ toString (p.render_include_audio.getD 0))
  ++ entryIf p.render_cam_mode.isSome ("render.CamMode=" ++ toString (p.render_cam_mode.getD 0))
  ++ entryIf (pyTruthyStrOpt p._pipeline) ("pipeline=" ++ p._pipeline.getD "")

/-- One wire field of the encoder, for the order/filter characterization:
its wire key, its emission gate, and its rendered value. -/
structure FieldSpec where
  key : String
  gate : ProcessParams → Bool
  value : ProcessParams → String

/-- The declared field order of the encoder together with each field's
emission gate (Python truthiness for string/list-valued fields, `is not None`
for the rest) and rendered value. -/
def paramFieldSpecs : List FieldSpec :=
  [ ⟨"config", fun p => pyTruthyStrOpt p.config, fun p => p.config.getD ""⟩,
    ⟨"formats", fun p => pyTruthyListOpt p.formats, fun p => String.intercalate "," (p.formats.getD [])⟩,
    ⟨"model", fun p => pyTruthyStrOpt p.model_id, fun p => p.model_id.getD ""⟩,
    ⟨"models", fun p => pyTruthyListOpt p._models, fun p => jsonDictList (p._models.getD [])⟩,
    ⟨"sim", fun p => p.sim.isSome, fun p => toString (p.sim.getD 0)⟩,
    ⟨"trackFace", fun p => p.track_face.isSome, fun p => toString (p.track_face.getD 0)⟩,
    ⟨"trackHand", fun p => p.track_hand.isSome, fun p => toString (p.track_hand.getD 0)⟩,
    ⟨"footLockingMode", fun p => pyTruthyStrOpt p.foot_locking_mode, fun p => p.foot_locking_mode.getD ""⟩,
    ⟨"videoSpeedMultiplier", fun p => p.video_speed_multiplier.isSome, fun p => pyNumStr (p.video_speed_multiplier.getD 0)⟩,
    ⟨"poseFilteringStrength", fun p => p.pose_filtering_strength.isSome, fun p => pyNumStr (p.pose_filtering_strength.getD 0)⟩,
    ⟨"upperBodyOnly", fun p => p.upper_body_only.isSome, fun p => pyBoolStr (p.upper_body_only.getD false)⟩,
    ⟨"rootAtOrigin", fun p => p.root_at_origin.isSome, fun p => pyBoolStr (p.root_at_origin.getD false)⟩,
    ⟨"trim", fun p => p.trim.isSome, fun p => pyNumStr (p.trim.getD (0, 0)).1 ++ "," ++ pyNumStr (p.trim.getD (0, 0)).2⟩,
    ⟨"crop", fun p => p.crop.isSome,
      fun p => pyNumStr (p.crop.getD (0, 0, 0, 0)).1 ++ "," ++ pyNumStr (p.crop.getD (0, 0, 0, 0)).2.1
        ++ "," ++ pyNumStr (p.crop.getD (0, 0, 0, 0)).2.2.1 ++ "," ++ pyNumStr (p.crop.getD (0, 0, 0, 0)).2.2.2⟩,
    ⟨"render.sbs", fun p => p.render_sbs.isSome, fun p => toString (p.render_sbs.getD 0)⟩,
    ⟨"render.bgColor", fun p => p.render_bg_color.isSome,
      fun p => toString (p.render_bg_color.getD (0, 0, 0, 0)).1 ++ "," ++ toString (p.render_bg_color.getD (0, 0, 0, 0)).2.1
        ++ "," ++ toString (p.render_bg_color.getD (0, 0, 0, 0)).2.2.1 ++ "," ++ toString (p.render_bg_color.getD (0, 0, 0, 0)).2.2.2⟩,
    ⟨"render.backdrop", fun p => pyTruthyStrOpt p.render_backdrop, fun p => p.render_backdrop.getD ""⟩,
    ⟨"render.shadow", fun p => p.render_shadow.isSome, fun p => toString (p.render_shadow.getD 0)⟩,
    ⟨"render.includeAudio", fun p => p.render_include_audio.isSome, fun p => toString (p.render_include_audio.getD 0)⟩,
    ⟨"render.CamMode", fun p => p.render_cam_mode.isSome, fun p => toString (p.render_cam_mode.getD 0)⟩,
    ⟨"pipeline", fun p => pyTruthyStrOpt p._pipeline, fun p => p._pipeline.getD ""⟩ ]

/-- Order/filter characterization of the encoder: keep, in declared order,
exactly the fields whose gate passes, and render each as `key=value`. -/
def toParamsListSpec (p : ProcessParams) : List String :=
  (paramFieldSpecs.filter (fun fs => fs.gate p)).map (fun fs => fs.key ++ "=" ++ fs.value p)

/-! ## data/enums.py and data/job_status.py -/

/-- The `Status` enum (data/enums.py). -/
inductive Status where
  | starting
  | progress
  | success
  | failure
  | retry
deriving DecidableEq

/-- Parsing `Status(value)` on a raw string; `none` models the `ValueError` that
`JobStatus.from_dict` catches and turns into a `None` status. -/
def parseStatus (s : String) : Option Status :=
  if s = "STARTING" then some .starting
  else if s = "PROGRESS" then some .progress
  else if s = "SUCCESS" then some .success
  else if s = "FAILURE" then some .failure
  else if s = "RETRY" then some .retry
  else none

/-- Embedding of `JobStatusDetails` (data/job_status.py) after `from_dict`: `exc_message`
already holds the formatted resolver output. -/
structure JobStatusDetails where
  step : Option Int := none
  total : Option Int := none
  exc_message : Option String := none
  exc_type : Option String := none
  input_file : Option (List String) := none
  output_file : Option (List String) := none
deriving DecidableEq

/-- Raw `details` dict of a status-fetch response entry, before `from_dict`. -/
structure RawDetails where
  step : Option Int := none
  total : Option Int := none
  exc_message : ExcVal := .vNone
  exc_type : Option String := none
  input_f : Option (List String) := none
  output_f : Option (List String) := none

/-- Embedding of `JobStatusDetails.from_dict` (data/job_status.py lines 34-51): the raw
`exc_message`, when not `None`, is passed through `format_error_message`
together with `exc_type` before being stored. -/
def JobStatusDetails.from_dict (d : RawDetails) : JobStatusDetails :=
  { step := d.step
    total := d.total
    exc_message := if d.exc_message.isNone then none else some (format_error_message d.exc_message d.exc_type)
    exc_type := d.exc_type
    input_file := d.input_f
    output_file := d.output_f }

/-- Embedding of `JobStatus` (data/job_status.py). -/
structure JobStatus where
  rid : String := ""
  status : Option Status := none
  details : Option JobStatusDetails := none
  position_in_queue : Option Int := none
deriving DecidableEq

/-- Raw status-fetch response entry, before `JobStatus.from_dict`. -/
structure RawStatus where
  rid : Option String := none
  status : Option String := none
  details : Option RawDetails := none
  positionInQueue : Option Int := none

/-- Embedding of `JobStatus.from_dict` (data/job_status.py lines 76-95): an unknown status
string parses to `None` (the caught `ValueError`), `positionInQueue`
defaults to `0`. -/
def JobStatus.from_dict (d : RawStatus) : JobStatus :=
  { rid := d.rid.getD ""
    status := d.status.bind parseStatus
    details := d.details.map JobStatusDetails.from_dict
    position_in_queue := some (d.positionInQueue.getD 0) }

/-! ## client.py / async_client.py: the `_poll_job` loop -/

/-- Embedding of `JobResult` (data/callback.py); `input` receives the singleton-wrapped
input-file list that `_poll_job` builds. -/
structure JobResult where
  input : List (List String)
  output : Option (List String)
deriving DecidableEq

/-- Embedding of `JobError` (data/callback.py); both fields may be Python `None`. -/
structure JobError where
  code : Option String
  message : Option String
deriving DecidableEq

/-- One observable callback invocation of the poll loop. -/
inductive PollEvent where
  | progressEv (rid : String) (percent : Int) (queuePos : Option Int)
  | resultEv (rid : String) (result : Option JobResult) (error : Option JobError)
deriving DecidableEq

/-- How a single run of the poll loop ends: normal return after a terminal
status, a raised `TimeoutError` carrying the job id and the elapsed time at
the raise, or exhaustion of the supplied response sequence (the real loop
would keep polling). -/
inductive PollOutcome where
  | finished
  | timedOut (rid : String) (elapsed : Int)
  | exhausted
deriving DecidableEq

/-- Python `x if (details and details.step) else dflt`: Python truthiness collapses
a missing details object, a missing field and a zero value to the default. -/
def pyOptIntOr (v : Option Int) (dflt : Int) : Int :=
  match v with
  | some n => if n = 0 then dflt else n
  | none => dflt

/-- Exact ceiling of `num / den` for `den > 0`, via Euclidean division. -/
def ceilRatio (num den : Int) : Int :=
  -(Int.ediv (-num) den)

/-! ### IEEE-754 binary64 model for the percent computation

`percent = math.ceil((step / total) * 100)` (client.py line 699) performs
two double-precision operations — the correctly rounded division
`step / total` and the correctly rounded product `· * 100` — before the
exact `math.ceil`. Both roundings are round-to-nearest, ties-to-even, onto
the binary64 grid: 53-bit mantissas for magnitudes at or above `2^-1022`,
a fixed grid of `2^-1074` below (subnormals). The model computes each step
in exact integer arithmetic on a dyadic (mantissa, exponent) representation;
overflow to infinity (magnitudes at or above `2^1024`, where CPython raises
`OverflowError` during int-to-float conversion anyway) is not modelled. -/

/-- Fuel-driven binary logarithm: `log2F fuel n` is `floor(log2 n)` whenever
`n ≤ fuel` (structural recursion keeps it kernel-evaluable). -/
def log2F : Nat → Nat → Nat
  | 0, _ => 0
  | fuel + 1, n => if n ≤ 1 then 0 else log2F fuel (n / 2) + 1

/-- Binary logarithm of a natural number (`floor(log2 n)` for `n > 0`). -/
def log2N (n : Nat) : Nat :=
  log2F n n

/-- Decides `2^k ≤ a / b` for naturals `a, b > 0` and an integer `k`,
in integer arithmetic. -/
def pow2LeFrac (k : Int) (a b : Nat) : Bool :=
  match k with
  | .ofNat n => b * 2 ^ n ≤ a
  | .negSucc n => b ≤ a * 2 ^ (n + 1)

/-- Integer `floor(log2 (a / b))` for `a, b > 0`: the candidate
`log2 a - log2 b` is off by at most one, fixed by one comparison. -/
def floorLog2Frac (a b : Nat) : Int :=
  let k : Int := (log2N a : Int) - (log2N b : Int)
  if pow2LeFrac k a b then k else k - 1

/-- The binary64 grid exponent for a magnitude `a / b`: mantissas carry 52
fractional bits down to the subnormal floor at `2^-1074`. -/
def gridExp (a b : Nat) : Int :=
  max (floorLog2Frac a b) (-1022) - 52

/-- Round `n / d` (naturals, `d > 0`) to the nearest integer, ties to even. -/
def rneFrac (n d : Nat) : Nat :=
  let q := n / d
  let r := n % d
  if 2 * r < d then q
  else if d < 2 * r then q + 1
  else if q % 2 = 0 then q else q + 1

/-- Correctly rounded binary64 value of `a / b` (naturals, `b > 0`), as a
dyadic pair `(m, e)` denoting `m * 2^e`: the mantissa is the nearest-even
integer multiple of the grid step `2^(gridExp a b)`. -/
def flFrac (a b : Nat) : Nat × Int :=
  if a = 0 then (0, 0)
  else
    let e := gridExp a b
    match e with
    | .ofNat n => (rneFrac a (b * 2 ^ n), e)
    | .negSucc n => (rneFrac (a * 2 ^ (n + 1)) b, e)

/-- The exact value `m * 2^e` of a dyadic pair, as a fraction of naturals. -/
def dyadicFrac (m : Nat) (e : Int) : Nat × Nat :=
  match e with
  | .ofNat n => (m * 2 ^ n, 1)
  | .negSucc n => (m, 2 ^ (n + 1))

/-- Exact ceiling of the dyadic value `m * 2^e`. -/
def ceilDyadic (m : Nat) (e : Int) : Int :=
  match e with
  | .ofNat n => ((m * 2 ^ n : Nat) : Int)
  | .negSucc n => ceilRatio (m : Int) ((2 ^ (n + 1) : Nat) : Int)

/-- Exact floor of the dyadic value `m * 2^e`. -/
def floorDyadic (m : Nat) (e : Int) : Int :=
  match e with
  | .ofNat n => ((m * 2 ^ n : Nat) : Int)
  | .negSucc n => Int.ediv (m : Int) ((2 ^ (n + 1) : Nat) : Int)

/-- The program's `math.ceil((s / t) * 100)` for integers `s` and `t > 0`:
correctly rounded binary64 division, correctly rounded product with the
exactly representable 100, exact ceiling. Negative `s` goes through the
sign symmetry of nearest-even rounding and `ceil(-x) = -floor(x)`. -/
def floatPercentPipeline (s t : Int) : Int :=
  let p1 := flFrac s.natAbs t.natAbs
  let y := dyadicFrac (100 * p1.1) p1.2
  let p2 := flFrac y.1 y.2
  if 0 ≤ s then ceilDyadic p2.1 p2.2 else -(floorDyadic p2.1 p2.2)

/-- The percent computed in a Progress cycle (client.py lines 694-699):
falsy `step` defaults to 0, falsy `total` (including an explicit 0!)
defaults to 100, and the double-precision ceiling pipeline runs only when
the effective total is positive. -/
def pollPercent (js : JobStatus) : Int :=
  let step := match js.details with
    | some d => pyOptIntOr d.step 0
    | none => 0
  let total := match js.details with
    | some d => pyOptIntOr d.total 100
    | none => 100
  if 0 < total then floatPercentPipeline step total else 0

/-- The `ProgressCallbackData` dispatch of a Progress cycle. -/
def progressEventFor (rid : String) (js : JobStatus) : PollEvent :=
  .progressEv rid (pollPercent js) js.position_in_queue

/-- The `JobResult` built in the Success branch (client.py lines 726-733):
the input file list is wrapped in a singleton list when truthy. -/
def mkJobResult (js : JobStatus) : JobResult :=
  { input := match js.details with
      | some d => match d.input_file with
        | some l => if l.isEmpty then [] else [l]
        | none => []
      | none => []
    output := js.details.bind (fun d => d.output_file) }

/-- The `JobError` built in the Failure branch (client.py lines 734-741). -/
def mkJobError (js : JobStatus) : JobError :=
  { code := match js.details with
      | some d => d.exc_type
      | none => some "Unknown"
    message := match js.details with
      | some d => d.exc_message
      | none => some "Unknown error" }

/-- The `ResultCallbackData` dispatch of a terminal cycle. -/
def resultEventFor (rid : String) (js : JobStatus) : PollEvent :=
  if js.status = some Status.success then .resultEv rid (some (mkJobResult js)) none
  else .resultEv rid none (some (mkJobError js))

/-- Python truthiness of the `timeout` argument (`if timeout and ...`). -/
def timeoutTruthy : Option Int → Bool
  | none => false
  | some t => t != 0

/-- Embedding of `_poll_job` (client.py lines 680-752 and, line for line, async_client.py
lines 266-344), driven by the list of successive `get_job_status` responses.
`pcb`/`rcb` say whether a progress/result callback is registered; recorded
events are exactly the callback invocations. `k` counts completed sleep
intervals, so the timeout check of cycle `k` observes elapsed time
`k * pollInterval` (idealized zero-cost requests). The per-cycle order is
that of the source: progress dispatch, terminal dispatch-and-return,
timeout check, sleep. -/
def pollJob (rid : String) (pcb rcb : Bool) (pollInterval : Int) (timeout : Option Int) :
    Nat → List JobStatus → List PollEvent × PollOutcome
  | _, [] => ([], .exhausted)
  | k, js :: rest =>
    let evs1 : List PollEvent :=
      if js.status = some Status.progress then
        if pcb then [progressEventFor rid js] else []
      else []
    if js.status = some Status.success ∨ js.status = some Status.failure then
      let evs2 : List PollEvent := if rcb then [resultEventFor rid js] else []
      (evs1 ++ evs2, .finished)
    else
      let elapsed : Int := (k : Int) * pollInterval
      if timeoutTruthy timeout ∧ elapsed > timeout.getD 0 then
        (evs1, .timedOut rid elapsed)
      else
        let next := pollJob rid pcb rcb pollInterval timeout (k + 1) rest
        (evs1 ++ next.1, next.2)

/-! ## client.py: poll dispatch of the job-starting operations -/

/-- How a job-starting method runs the poller after submission. -/
inductive PollMode where
  | noPoll
  | syncPoll
  | backgroundPoll
deriving DecidableEq

/-- Dispatch of `start_new_job` (client.py lines 477-498): poll when
`blocking or progress_callback is not None or result_callback is not None`,
synchronously iff `blocking`. -/
def startNewJobPollMode (blocking pcb rcb : Bool) : PollMode :=
  if blocking || pcb || rcb then
    (if blocking then .syncPoll else .backgroundPoll)
  else .noPoll

/-- Dispatch of `prepare_multi_person_job` (client.py lines 538-559): same dispatch as
`start_new_job`. -/
def prepareMultiPersonJobPollMode (blocking pcb rcb : Bool) : PollMode :=
  if blocking || pcb || rcb then
    (if blocking then .syncPoll else .backgroundPoll)
  else .noPoll

/-- Dispatch of `rerun_job` (client.py lines 655-676): same dispatch as `start_new_job`. -/
def rerunJobPollMode (blocking pcb rcb : Bool) : PollMode :=
  if blocking || pcb || rcb then
    (if blocking then .syncPoll else .backgroundPoll)
  else .noPoll

/-- Dispatch of `start_multi_person_job` (client.py lines 603-624): the outer condition
tests only the callbacks — `blocking` is absent from it, unlike the three
sibling methods. -/
def startMultiPersonJobPollMode (blocking pcb rcb : Bool) : PollMode :=
  if pcb || rcb then
    (if blocking then .syncPoll else .backgroundPoll)
  else .noPoll

/-! ## data/params.py: `ProcessParams.copy` under an explicit heap

Python list objects are mutable and shared by reference; `copy` (lines
154-178) calls the shallow `list.copy()` on `formats` and `_models`, so the
new lists are fresh objects whose elements are the same references. To settle
claims about mutation and sharing, the two list-valued fields are modelled as
references into an explicit heap: `strLists` holds `formats` list objects
(of immutable strings), `dictLists` holds `_models` list objects (of dict
references), and `dicts` holds the mutable model-assignment dicts. All other
fields hold immutable Python values (numbers, strings, tuples of numbers)
for which reference sharing is observationally identical to value copying,
so they stay value-modelled inside `base`. Addresses are indices; allocation
appends. -/

/-- The mutable heap backing list and dict objects. -/
structure Heap where
  strLists : List (List String) := []
  dictLists : List (List Nat) := []
  dicts : List (List (String × String)) := []

/-- A `ProcessParams` object whose two list-valued fields are heap
references; `base.formats` and `base._models` are unused (the references
take their place). -/
structure ParamsRef where
  base : ProcessParams := {}
  formatsRef : Option Nat := none
  modelsRef : Option Nat := none

/-- The value a `ParamsRef` denotes in a heap: dereference the two list
fields (dangling addresses read as empty, never reached under `wfb`). -/
def derefParams (h : Heap) (p : ParamsRef) : ProcessParams :=
  { p.base with
    formats := p.formatsRef.map (fun a => h.strLists.getD a [])
    _models := p.modelsRef.map (fun a => (h.dictLists.getD a []).map (fun d => h.dicts.getD d [])) }

/-- Encoding `to_params_list` as observed through the heap. -/
def encodeRef (h : Heap) (p : ParamsRef) : List String :=
  (derefParams h p).to_params_list

/-- Well-formedness: the references of `p` point into the heap. -/
def ParamsRef.wfb (h : Heap) (p : ParamsRef) : Bool :=
  (match p.formatsRef with
    | none => true
    | some a => a < h.strLists.length)
  && (match p.modelsRef with
    | none => true
    | some b => b < h.dictLists.length)

/-- Python `self.formats.copy() if self.formats else None`: a falsy (absent or
empty) list yields `None` without allocating; otherwise a fresh list object
with the same contents is allocated. -/
def copyStrListField (h : Heap) (r : Option Nat) : Heap × Option Nat :=
  match r with
  | none => (h, none)
  | some a =>
    let cell := h.strLists.getD a []
    if cell = [] then (h, none)
    else ({ h with strLists := h.strLists ++ [cell] }, some h.strLists.length)

/-- Python `self._models.copy() if self._models else None`: the fresh list object
holds the same dict references — the dicts themselves are not copied. -/
def copyDictListField (h : Heap) (r : Option Nat) : Heap × Option Nat :=
  match r with
  | none => (h, none)
  | some b =>
    let cell := h.dictLists.getD b []
    if cell = [] then (h, none)
    else ({ h with dictLists := h.dictLists ++ [cell] }, some h.dictLists.length)

/-- Embedding of `ProcessParams.copy` (data/params.py lines 154-178): scalar fields are
carried over, the two list fields are shallow-copied through the heap. -/
def ParamsRef.copy (h : Heap) (p : ParamsRef) : Heap × ParamsRef :=
  let f := copyStrListField h p.formatsRef
  let m := copyDictListField f.1 p.modelsRef
  (m.1, { p with formatsRef := f.2, modelsRef := m.2 })

/-- In-place mutation of a `formats` list object (append, setitem, ...). -/
def Heap.setStrList (h : Heap) (a : Nat) (v : List String) : Heap :=
  { h with strLists := h.strLists.set a v }

/-- In-place mutation of a `_models` list object. -/
def Heap.setDictList (h : Heap) (b : Nat) (v : List Nat) : Heap :=
  { h with dictLists := h.dictLists.set b v }

/-- In-place mutation of a model-assignment dict. -/
def Heap.setDict (h : Heap) (d : Nat) (v : List (String × String)) : Heap :=
  { h with dicts := h.dicts.set d v }

end Animate3D
namespace Animate3D

/-! ## Concrete instances used by witnesses and counterexamples -/

/-- Parameters with `formats` explicitly set to the empty list and
`render_cam_mode` set. -/
def c4cexParams : ProcessParams := { formats := some [], render_cam_mode := some 1 }

/-- A Progress status reporting `step = 5, total = 0`. -/
def c2cexStatus : JobStatus :=
  { rid := "j", status := some .progress,
    details := some { step := some 5, total := some 0 }, position_in_queue := some 0 }

/-- A Progress status reporting `step = 200, total = 100`. -/
def c2cexStatus2 : JobStatus :=
  { rid := "j", status := some .progress,
    details := some { step := some 200, total := some 100 }, position_in_queue := some 0 }

/-- A Progress status reporting `step = 7, total = 100`. -/
def c2cexStatus3 : JobStatus :=
  { rid := "j", status := some .progress,
    details := some { step := some 7, total := some 100 }, position_in_queue := some 0 }

/-- A Progress status reporting `step = 1, total = 3`. -/
def c2witStatus : JobStatus :=
  { rid := "j", status := some .progress,
    details := some { step := some 1, total := some 3 }, position_in_queue := some 0 }

/-- Two concrete Progress responses. -/
def c1prog1 : JobStatus :=
  { rid := "j1", status := some .progress,
    details := some { step := some 1, total := some 4 }, position_in_queue := some 0 }

/-- Second concrete Progress response. -/
def c1prog2 : JobStatus :=
  { rid := "j1", status := some .progress,
    details := some { step := some 4, total := some 4 }, position_in_queue := some 0 }

/-- A concrete Success response. -/
def c1success : JobStatus :=
  { rid := "j1", status := some .success,
    details := some { output_file := some ["anim.fbx"] }, position_in_queue := some 0 }

/-- A concrete raw Failure response with `exc_message=["101"]`,
`exc_type="CreditError"`. -/
def c3rawDetails : RawDetails :=
  { exc_message := .vList [.vStr "101"], exc_type := some "CreditError" }

/-- The enclosing raw status entry for `c3rawDetails`. -/
def c3rawStatus : RawStatus :=
  { rid := some "j3", status := some "FAILURE", details := some c3rawDetails }

/-- A non-terminal (Progress) response used by the timeout witness. -/
def c5prog : JobStatus :=
  { rid := "j5", status := some .progress,
    details := some { step := some 1, total := some 4 }, position_in_queue := some 0 }

/-- A raw entry with the unknown status string `"REVOKED"`. -/
def c10raw : RawStatus :=
  { rid := some "j10", status := some "REVOKED", details := none }

/-- A concrete heap: one formats list `["bvh","fbx"]`, one `_models` list
holding dict 0, one dict `{trackingId: 001, modelId: a}`. -/
def c9heap : Heap :=
  { strLists := [["bvh", "fbx"]], dictLists := [[0]],
    dicts := [[("trackingId", "001"), ("modelId", "a")]] }

/-- Parameters referencing the formats list and `_models` list of `c9heap`. -/
def c9params : ParamsRef :=
  { base := {}, formatsRef := some 0, modelsRef := some 0 }

/-! ## Helper lemmas -/

/-- Filter-then-render over a field-spec list equals the fold of conditional
entries, the shape of the sequential encoder. -/
theorem filterMap_eq_foldr_entryIf (fss : List FieldSpec) (p : ProcessParams) :
    (fss.filter (fun fs => fs.gate p)).map (fun fs => fs.key ++ "=" ++ fs.value p) =
      fss.foldr (fun fs acc => entryIf (fs.gate p) (fs.key ++ "=" ++ fs.value p) ++ acc) [] := by
  induction fss with
  | nil => rfl
  | cons fs fss ih =>
    by_cases h : fs.gate p
    · simp [List.filter_cons, h, entryIf, ih]
    · simp [List.filter_cons, h, entryIf, ih]

/-- The value `ceilRatio a b` is the exact ceiling of `a / b` when `b > 0`. -/
theorem ceilRatio_spec (a b : Int) (hb : 0 < b) :
    b * (ceilRatio a b - 1) < a ∧ a ≤ b * ceilRatio a b := by
  have hdm : b * ((-a).ediv b) + (-a).emod b = -a := Int.ediv_add_emod (-a) b
  have h0 : 0 ≤ (-a).emod b := Int.emod_nonneg _ (by omega)
  have h1 : (-a).emod b < b := Int.emod_lt_of_pos _ hb
  unfold ceilRatio
  constructor <;> nlinarith [hdm, h0, h1]

/-- Joining a one-element list is the element. -/
theorem intercalate_singleton (s x : String) : String.intercalate s [x] = x := rfl

/-! ## C4 -/

/-- Claim C4, counterexample: with `formats` explicitly set to `[]` the
encoder emits no `formats=` entry (Python truthiness drops empty lists), the
camera-mode key is `render.CamMode` (capital C), not `render.camMode`, and
`config` is emitted although never explicitly set (its default is truthy). -/
theorem c4_counterexample :
    c4cexParams.formats = some [] ∧
    c4cexParams.to_params_list = ["config=configDefault", "render.CamMode=1"] ∧
    ¬ ("formats=" ∈ c4cexParams.to_params_list) ∧
    ¬ ("render.camMode=1" ∈ c4cexParams.to_params_list) := by
  decide

/-- Claim C4, amended: the encoder emits, in the fixed declared order
config, formats, model, models, sim, trackFace, trackHand, footLockingMode,
videoSpeedMultiplier, poseFilteringStrength, upperBodyOnly, rootAtOrigin,
trim, crop, render.sbs, render.bgColor, render.backdrop, render.shadow,
render.includeAudio, render.CamMode, pipeline, exactly the fields whose
emission gate passes: set-and-non-empty for string- and list-valued fields
(an explicitly set empty list is dropped, and the defaulted `config` is
emitted), set (not `None`) for the remaining fields; each as `key=value`. -/
theorem c4_order_and_gates (p : ProcessParams) : p.to_params_list = toParamsListSpec p := by
  rw [toParamsListSpec, filterMap_eq_foldr_entryIf]
  simp only [paramFieldSpecs, List.foldr_cons, List.foldr_nil]
  simp [ProcessParams.to_params_list, String.append_assoc]

/-! ## C2 -/

/-! ### Lemmas about the binary64 model -/

/-- Bracketing for the fuelled binary logarithm: correct whenever the fuel
dominates the argument. -/
theorem log2F_bracket : ∀ (fuel n : Nat), 0 < n → n ≤ fuel →
    2 ^ log2F fuel n ≤ n ∧ n < 2 ^ (log2F fuel n + 1) := by
  intro fuel
  induction fuel with
  | zero => intro n hn hle; omega
  | succ fuel ih =>
    intro n hn hle
    simp only [log2F]
    by_cases h1 : n ≤ 1
    · rw [if_pos h1]
      simp
      omega
    · rw [if_neg h1]
      obtain ⟨hl, hr⟩ := ih (n / 2) (by omega) (by omega)
      constructor
      · rw [pow_succ]
        omega
      · rw [pow_succ, pow_succ] at *
        omega

/-- Bracketing for `log2N`. -/
theorem log2N_bracket (n : Nat) (hn : 0 < n) :
    2 ^ log2N n ≤ n ∧ n < 2 ^ (log2N n + 1) :=
  log2F_bracket n n hn le_rfl

/-- Correctness of the integer comparison `2^k ≤ a / b`. -/
theorem pow2LeFrac_iff (k : Int) (a b : Nat) (hb : 0 < b) :
    pow2LeFrac k a b = true ↔ (2:ℚ) ^ k ≤ (a:ℚ) / b := by
  have hbq : (0:ℚ) < b := by exact_mod_cast hb
  cases k with
  | ofNat n =>
    simp only [pow2LeFrac, decide_eq_true_eq]
    rw [show ((Int.ofNat n : ℤ)) = (n : ℤ) from rfl, zpow_natCast, le_div_iff hbq]
    constructor
    · intro h
      calc (2:ℚ)^n * b = ((b * 2^n : ℕ) : ℚ) := by push_cast; ring
        _ ≤ (a : ℚ) := by exact_mod_cast h
    · intro h
      have : ((b * 2^n : ℕ) : ℚ) ≤ (a : ℚ) := by push_cast; linarith [h]
      exact_mod_cast this
  | negSucc n =>
    simp only [pow2LeFrac, decide_eq_true_eq]
    rw [zpow_negSucc, inv_eq_one_div, div_le_div_iff (by positivity) hbq]
    constructor
    · intro h
      have : ((b : ℕ) : ℚ) ≤ ((a * 2^(n+1) : ℕ) : ℚ) := by exact_mod_cast h
      push_cast at this
      linarith
    · intro h
      have : ((b : ℕ) : ℚ) ≤ ((a * 2^(n+1) : ℕ) : ℚ) := by push_cast; linarith
      exact_mod_cast this

/-- Lower bracket of the fractional binary logarithm. -/
theorem floorLog2Frac_le (a b : Nat) (ha : 0 < a) (hb : 0 < b) :
    (2:ℚ) ^ floorLog2Frac a b ≤ (a:ℚ) / b := by
  have hbq : (0:ℚ) < b := by exact_mod_cast hb
  unfold floorLog2Frac
  by_cases hp : pow2LeFrac ((log2N a : Int) - (log2N b : Int)) a b
  · rw [if_pos hp]
    exact (pow2LeFrac_iff _ a b hb).mp hp
  · rw [if_neg hp]
    obtain ⟨h2a, _⟩ := log2N_bracket a ha
    obtain ⟨_, h2b⟩ := log2N_bracket b hb
    have hsplit : (2:ℚ) ^ ((log2N a : Int) - (log2N b : Int) - 1) =
        (2:ℚ) ^ (log2N a : Int) / (2:ℚ) ^ (((log2N b : Int)) + 1) := by
      rw [← zpow_sub₀ (by norm_num : (2:ℚ) ≠ 0)]
      ring_nf
    rw [hsplit]
    rw [div_le_div_iff (by positivity) hbq]
    have hcast : (2:ℚ) ^ (log2N a : Int) = ((2 ^ log2N a : ℕ) : ℚ) := by
      rw [zpow_natCast]; push_cast; ring
    have hcast2 : (2:ℚ) ^ ((log2N b : Int) + 1) = ((2 ^ (log2N b + 1) : ℕ) : ℚ) := by
      rw [show ((log2N b : Int) + 1) = ((log2N b + 1 : ℕ) : ℤ) by push_cast; ring, zpow_natCast]
      push_cast; ring
    rw [hcast, hcast2]
    have hnat : 2 ^ log2N a * b ≤ a * 2 ^ (log2N b + 1) :=
      Nat.mul_le_mul h2a (by omega)
    calc ((2 ^ log2N a : ℕ) : ℚ) * b = ((2 ^ log2N a * b : ℕ) : ℚ) := by push_cast; ring
      _ ≤ ((a * 2 ^ (log2N b + 1) : ℕ) : ℚ) := by exact_mod_cast hnat
      _ = (a : ℚ) * ((2 ^ (log2N b + 1) : ℕ) : ℚ) := by push_cast; ring

/-- Abstract form of the rounding bound, over an explicit quotient and
remainder: nearest-integer rounding overshoots by at most half the
denominator. -/
theorem rne_abstract (d q r m : Nat) (hr : r < d)
    (hm : m = if 2 * r < d then q else if d < 2 * r then q + 1
      else if q % 2 = 0 then q else q + 1) :
    2 * d * m ≤ 2 * (d * q + r) + d := by
  subst hm
  split_ifs <;> ring_nf <;> linarith

theorem rneFrac_mul_le (n d : Nat) (hd : 0 < d) :
    2 * d * rneFrac n d ≤ 2 * n + d := by
  have h := rne_abstract d (n / d) (n % d) (rneFrac n d) (Nat.mod_lt _ hd) rfl
  rw [Nat.div_add_mod n d] at h
  exact h

/-- Nearest-integer rounding in `ℚ`: `rneFrac n d ≤ n/d + 1/2`. -/
theorem rneFrac_le_q (n d : Nat) (hd : 0 < d) :
    (rneFrac n d : ℚ) ≤ (n:ℚ) / d + 1 / 2 := by
  have hdq : (0:ℚ) < d := by exact_mod_cast hd
  have h := rneFrac_mul_le n d hd
  rw [show (n:ℚ) / d + 1 / 2 = ((2 * n + d : ℕ) : ℚ) / ((2 * d : ℕ) : ℚ) by push_cast; field_simp; ring]
  rw [le_div_iff (by positivity)]
  calc (rneFrac n d : ℚ) * ((2 * d : ℕ) : ℚ) = ((2 * d * rneFrac n d : ℕ) : ℚ) := by push_cast; ring
    _ ≤ ((2 * n + d : ℕ) : ℚ) := by exact_mod_cast h
/-- Exact value of the fraction produced by `dyadicFrac`. -/
theorem dyadicFrac_val (m : Nat) (e : Int) :
    ((dyadicFrac m e).1 : ℚ) / ((dyadicFrac m e).2 : ℚ) = (m : ℚ) * (2:ℚ) ^ e := by
  cases e with
  | ofNat n =>
    simp only [dyadicFrac]
    rw [show ((Int.ofNat n : ℤ)) = (n : ℤ) from rfl, zpow_natCast]
    push_cast
    ring
  | negSucc n =>
    simp only [dyadicFrac]
    rw [zpow_negSucc]
    push_cast
    ring

/-- The denominator produced by `dyadicFrac` is positive. -/
theorem dyadicFrac_den_pos (m : Nat) (e : Int) : 0 < (dyadicFrac m e).2 := by
  cases e <;> simp [dyadicFrac]

/-- Correctness of `ceilDyadic`: it computes the exact ceiling of the
dyadic value. -/
theorem ceilDyadic_eq_ceil (m : Nat) (e : Int) :
    ceilDyadic m e = ⌈(m : ℚ) * (2:ℚ) ^ e⌉ := by
  cases e with
  | ofNat n =>
    simp only [ceilDyadic]
    rw [show ((Int.ofNat n : ℤ)) = (n : ℤ) from rfl, zpow_natCast]
    rw [show (m : ℚ) * (2:ℚ)^n = ((m * 2^n : ℕ) : ℚ) by push_cast; ring]
    rw [Int.ceil_natCast]
  | negSucc n =>
    simp only [ceilDyadic]
    have hd : (0:ℤ) < ((2 ^ (n+1) : ℕ) : ℤ) := by positivity
    obtain ⟨hl, hr⟩ := ceilRatio_spec (m : Int) ((2 ^ (n+1) : ℕ) : ℤ) hd
    rw [zpow_negSucc]
    symm
    rw [Int.ceil_eq_iff]
    have hdq : (0:ℚ) < ((2 ^ (n+1) : ℕ) : ℚ) := by positivity
    constructor
    · rw [show (m:ℚ) * ((2:ℚ)^(n+1))⁻¹ = (m:ℚ) / ((2^(n+1) : ℕ) : ℚ) by push_cast; ring]
      rw [lt_div_iff hdq]
      calc ((ceilRatio (m : Int) ((2 ^ (n+1) : ℕ) : ℤ) : ℚ) - 1) * ((2^(n+1) : ℕ) : ℚ)
          = (((( 2 ^ (n+1) : ℕ) : ℤ) * (ceilRatio (m : Int) ((2 ^ (n+1) : ℕ) : ℤ) - 1) : ℤ) : ℚ) := by
            push_cast; ring
        _ < ((m : ℤ) : ℚ) := by exact_mod_cast hl
        _ = (m : ℚ) := by push_cast; ring
    · rw [show (m:ℚ) * ((2:ℚ)^(n+1))⁻¹ = (m:ℚ) / ((2^(n+1) : ℕ) : ℚ) by push_cast; ring]
      rw [div_le_iff hdq]
      calc (m : ℚ) = ((m : ℤ) : ℚ) := by push_cast; ring
        _ ≤ ((((2 ^ (n+1) : ℕ) : ℤ) * ceilRatio (m : Int) ((2 ^ (n+1) : ℕ) : ℤ) : ℤ) : ℚ) := by
            exact_mod_cast hr
        _ = (ceilRatio (m : Int) ((2 ^ (n+1) : ℕ) : ℤ) : ℚ) * ((2^(n+1) : ℕ) : ℚ) := by
            push_cast; ring
/-- The fraction handed to `rneFrac` inside `flFrac` is exactly
`(a/b) * 2^(-e)`; packaged as the two bounds used downstream. Key bound:
for `q = a/b ≤ T < 2^53` the rounded value stays at or below `T`, because
the grid exponent is then at most 0, `T` sits on the grid, and nearest
rounding moves by at most half a grid step. -/
theorem flFrac_le_nat (a b T : Nat) (hb : 0 < b) (hT : 0 < T) (hT53 : T < 2 ^ 53)
    (hle : (a:ℚ) / b ≤ T) :
    ((flFrac a b).1 : ℚ) * (2:ℚ) ^ (flFrac a b).2 ≤ T := by
  have hbq : (0:ℚ) < b := by exact_mod_cast hb
  by_cases ha : a = 0
  · subst ha
    simp [flFrac]
  · have hapos : 0 < a := Nat.pos_of_ne_zero ha
    have haq : (0:ℚ) < a := by exact_mod_cast hapos
    -- the grid exponent cannot reach past 0 when the value is below 2^53
    have hge : gridExp a b ≤ 0 := by
      by_contra hcon
      push_neg at hcon
      have h53 : (53:ℤ) ≤ floorLog2Frac a b := by
        unfold gridExp at hcon
        omega
      have hlow := floorLog2Frac_le a b hapos hb
      have hmon : (2:ℚ) ^ (53:ℤ) ≤ (2:ℚ) ^ floorLog2Frac a b :=
        zpow_le_zpow_right₀ (by norm_num) h53
      have hTq : (T:ℚ) < (2:ℚ) ^ (53:ℤ) := by
        rw [show ((53:ℤ)) = ((53:ℕ) : ℤ) from rfl, zpow_natCast]
        exact_mod_cast hT53
      linarith
    unfold flFrac
    rw [if_neg ha]
    rcases hE : gridExp a b with n | n
    · -- grid exponent `ofNat n`; `n = 0` by `hge`
      have hn0 : n = 0 := by
        rw [hE] at hge
        simp only [Int.ofNat_eq_coe] at hge
        omega
      subst hn0
      dsimp only
      rw [show ((Int.ofNat 0 : ℤ)) = ((0:ℕ) : ℤ) from rfl, zpow_natCast]
      simp only [pow_zero, mul_one]
      -- mantissa bound: rneFrac a b ≤ a/b + 1/2 ≤ T + 1/2 < T + 1
      have hrne := rneFrac_le_q a b hb
      have h1 : (rneFrac a b : ℚ) ≤ (T : ℚ) + 1 / 2 := le_trans hrne (by linarith)
      have hq : (rneFrac a b : ℚ) < ((T + 1 : ℕ) : ℚ) := by
        push_cast
        linarith
      have hnat : rneFrac a b < T + 1 := by exact_mod_cast hq
      exact_mod_cast Nat.lt_succ_iff.mp hnat
    · -- grid exponent `negSucc n`: value is `m / 2^(n+1)`
      dsimp only
      rw [zpow_negSucc]
      have hdpos : (0:ℚ) < (2:ℚ) ^ (n + 1) := by positivity
      rw [show (rneFrac (a * 2 ^ (n + 1)) b : ℚ) * ((2:ℚ) ^ (n+1))⁻¹
          = (rneFrac (a * 2 ^ (n + 1)) b : ℚ) / ((2:ℚ) ^ (n+1)) by ring]
      rw [div_le_iff hdpos]
      -- mantissa bound: m ≤ (a * 2^(n+1)) / b + 1/2 ≤ T * 2^(n+1) + 1/2
      have hrne := rneFrac_le_q (a * 2 ^ (n + 1)) b hb
      have hval : ((a * 2 ^ (n + 1) : ℕ) : ℚ) / b ≤ (T : ℚ) * (2:ℚ) ^ (n + 1) := by
        rw [div_le_iff hbq]
        push_cast
        calc (a : ℚ) * (2:ℚ) ^ (n + 1) ≤ ((T : ℚ) * b) * (2:ℚ) ^ (n + 1) := by
              have : (a : ℚ) ≤ (T : ℚ) * b := by
                rw [← div_le_iff hbq] at *
                linarith [hle]
              nlinarith [this, hdpos.le]
          _ = (T : ℚ) * (2:ℚ) ^ (n + 1) * b := by ring
      have hlt : (rneFrac (a * 2 ^ (n + 1)) b : ℚ) < (T : ℚ) * (2:ℚ) ^ (n + 1) + 1 := by
        linarith
      -- move to naturals to shave the strict `+1`
      have hcast : (T : ℚ) * (2:ℚ) ^ (n + 1) = ((T * 2 ^ (n + 1) : ℕ) : ℚ) := by
        push_cast; ring
      rw [hcast] at hlt
      have hnat : rneFrac (a * 2 ^ (n + 1)) b < T * 2 ^ (n + 1) + 1 := by
        exact_mod_cast hlt
      have hle2 : (rneFrac (a * 2 ^ (n + 1)) b : ℚ) ≤ ((T * 2 ^ (n + 1) : ℕ) : ℚ) := by
        exact_mod_cast Nat.lt_succ_iff.mp hnat
      rw [hcast]
      exact hle2
/-- Bounds for the composed rounding pipeline on the mantissa/exponent
pairs it actually produces: a value at most 1 stays at most 100 after the
product with 100, the second rounding, and the ceiling. -/
theorem pipeline_core (a b : Nat) (hb : 0 < b) (hab : (a:ℚ) / b ≤ 1) :
    0 ≤ ceilDyadic (flFrac (dyadicFrac (100 * (flFrac a b).1) (flFrac a b).2).1
          (dyadicFrac (100 * (flFrac a b).1) (flFrac a b).2).2).1
        (flFrac (dyadicFrac (100 * (flFrac a b).1) (flFrac a b).2).1
          (dyadicFrac (100 * (flFrac a b).1) (flFrac a b).2).2).2 ∧
    ceilDyadic (flFrac (dyadicFrac (100 * (flFrac a b).1) (flFrac a b).2).1
          (dyadicFrac (100 * (flFrac a b).1) (flFrac a b).2).2).1
        (flFrac (dyadicFrac (100 * (flFrac a b).1) (flFrac a b).2).1
          (dyadicFrac (100 * (flFrac a b).1) (flFrac a b).2).2).2 ≤ 100 := by
  have h1le : ((flFrac a b).1 : ℚ) * (2:ℚ) ^ (flFrac a b).2 ≤ 1 :=
    flFrac_le_nat a b 1 hb one_pos (by norm_num) (by simpa using hab)
  have hy2 : 0 < (dyadicFrac (100 * (flFrac a b).1) (flFrac a b).2).2 :=
    dyadicFrac_den_pos _ _
  have hyval : ((dyadicFrac (100 * (flFrac a b).1) (flFrac a b).2).1 : ℚ) /
      ((dyadicFrac (100 * (flFrac a b).1) (flFrac a b).2).2 : ℚ) =
      ((100 * (flFrac a b).1 : ℕ) : ℚ) * (2:ℚ) ^ (flFrac a b).2 := dyadicFrac_val _ _
  have hy100 : ((dyadicFrac (100 * (flFrac a b).1) (flFrac a b).2).1 : ℚ) /
      ((dyadicFrac (100 * (flFrac a b).1) (flFrac a b).2).2 : ℚ) ≤ 100 := by
    rw [hyval]
    have hmnn : (0:ℚ) ≤ ((flFrac a b).1 : ℚ) := Nat.cast_nonneg _
    have hzp : (0:ℚ) < (2:ℚ) ^ (flFrac a b).2 := by positivity
    push_cast
    nlinarith [h1le, hmnn, hzp]
  have h2le : ((flFrac (dyadicFrac (100 * (flFrac a b).1) (flFrac a b).2).1
        (dyadicFrac (100 * (flFrac a b).1) (flFrac a b).2).2).1 : ℚ) *
      (2:ℚ) ^ (flFrac (dyadicFrac (100 * (flFrac a b).1) (flFrac a b).2).1
        (dyadicFrac (100 * (flFrac a b).1) (flFrac a b).2).2).2 ≤ 100 := by
    have := flFrac_le_nat (dyadicFrac (100 * (flFrac a b).1) (flFrac a b).2).1
      (dyadicFrac (100 * (flFrac a b).1) (flFrac a b).2).2 100 hy2 (by norm_num)
      (by norm_num) hy100
    simpa using this
  rw [ceilDyadic_eq_ceil]
  constructor
  · apply Int.ceil_nonneg
    positivity
  · rw [show ((100:ℤ)) = ((100:ℤ)) from rfl]
    rw [Int.ceil_le]
    push_cast
    exact h2le

/-- The full percent pipeline stays within `[0, 100]` whenever
`0 ≤ step ≤ total`. -/
theorem floatPercentPipeline_bounds (s t : Int) (hs : 0 ≤ s) (hst : s ≤ t) (ht : 0 < t) :
    0 ≤ floatPercentPipeline s t ∧ floatPercentPipeline s t ≤ 100 := by
  have hb : 0 < t.natAbs := by omega
  have hab : (s.natAbs : ℚ) / (t.natAbs : ℚ) ≤ 1 := by
    rw [div_le_one (by exact_mod_cast hb)]
    have : s.natAbs ≤ t.natAbs := by omega
    exact_mod_cast this
  have h := pipeline_core s.natAbs t.natAbs hb hab
  simp only [floatPercentPipeline, if_pos hs]
  exact h

/-- Claim C2, counterexample: with reported `total = 0` the code substitutes
100 (Python truthiness) and dispatches percent `5`, not the claimed `0`;
with `step = 200, total = 100` it dispatches `200`, outside the claimed
`0 ≤ percent ≤ 100`; and with `step = 7, total = 100` the double-precision
product `(7/100)*100 = 7.000000000000001` makes it dispatch `8`, while the
claimed exact ceiling `ceil(7*100/100)` is `7`. -/
theorem c2_counterexample :
    pollJob "j" true true 5 none 0 [c2cexStatus] =
      ([.progressEv "j" 5 (some 0)], .exhausted) ∧
    pollJob "j" true true 5 none 0 [c2cexStatus2] =
      ([.progressEv "j" 200 (some 0)], .exhausted) ∧
    pollJob "j" true true 5 none 0 [c2cexStatus3] =
      ([.progressEv "j" 8 (some 0)], .exhausted) ∧
    ceilRatio (7 * 100) 100 = 7 := by
  refine ⟨rfl, rfl, rfl, by decide⟩

/-- Claim C2, amended: in a Progress cycle with reported step `s` and total
`t`: when `t > 0` the dispatched percent is the ceiling of the
double-precision product `fl(fl(s/t) * 100)` — which can exceed the exact
ceiling of `s*100/t`, e.g. `(7, 100)` dispatches 8 — and it lies in
`[0, 100]` provided `0 ≤ s ≤ t`; when `t < 0` the percent is `0`; and when
`t = 0` (falsy) the code substitutes total 100, so the percent is the
pipeline value at total 100, not 0. -/
theorem c2_percent (js : JobStatus) (d : JobStatusDetails) (s t : Int)
    (h1 : js.details = some d) (h2 : d.step = some s) (h3 : d.total = some t) :
    (0 < t → pollPercent js = floatPercentPipeline s t ∧
      (0 ≤ s → s ≤ t → 0 ≤ pollPercent js ∧ pollPercent js ≤ 100)) ∧
    (t < 0 → pollPercent js = 0) ∧
    (t = 0 → pollPercent js = floatPercentPipeline s 100) := by
  have hs : pollPercent js =
      if 0 < (if t = 0 then 100 else t) then
        floatPercentPipeline (if s = 0 then 0 else s) (if t = 0 then 100 else t)
      else 0 := by
    simp [pollPercent, h1, h2, h3, pyOptIntOr]
  have hstep : (if s = 0 then 0 else s) = s := by split <;> omega
  rw [hstep] at hs
  refine ⟨?_, ?_, ?_⟩
  · intro ht
    have ht0 : ¬ t = 0 := by omega
    rw [hs, if_neg ht0, if_pos ht]
    exact ⟨rfl, fun hs0 hst => floatPercentPipeline_bounds s t hs0 hst ht⟩
  · intro ht
    have ht0 : ¬ t = 0 := by omega
    rw [hs, if_neg ht0, if_neg (by omega)]
  · intro ht
    rw [hs, if_pos ht, if_pos (by norm_num)]

/-- Witness for `c2_percent` at `step = 1, total = 3`: the dispatched
percent equals the double-rounding pipeline value, which is 34, and the
bounds `0 ≤ percent ≤ 100` hold. -/
theorem c2_percent_witness :
    pollPercent c2witStatus = 34 ∧
    0 ≤ pollPercent c2witStatus ∧ pollPercent c2witStatus ≤ 100 := by
  have h := (c2_percent c2witStatus { step := some 1, total := some 3 } 1 3
    rfl rfl rfl).1 (by norm_num)
  exact ⟨by decide, (h.2 (by norm_num) (by norm_num)).1, (h.2 (by norm_num) (by norm_num)).2⟩

/-! ## C6 -/

/-- Claim C6 (code bug): the three sibling methods poll synchronously when
`blocking=True` even without callbacks and skip polling when `blocking=False`
with no callbacks, but `start_multi_person_job` omits `blocking` from its
dispatch condition, so with `blocking=True` and no callbacks it performs no
polling at all — contradicting its own docstring ("Whether to block until
job completes"). -/
theorem c6_code_bug_eval :
    startNewJobPollMode true false false = .syncPoll ∧
    prepareMultiPersonJobPollMode true false false = .syncPoll ∧
    rerunJobPollMode true false false = .syncPoll ∧
    startMultiPersonJobPollMode true false false = .noPoll ∧
    startNewJobPollMode false false false = .noPoll ∧
    prepareMultiPersonJobPollMode false false false = .noPoll ∧
    rerunJobPollMode false false false = .noPoll ∧
    startMultiPersonJobPollMode false false false = .noPoll := by
  decide

/-! ## C7 -/

/-- Claim C7, counterexample: `get_error_message` on the single (non-list)
unknown code `4242` falls back to `str(error_code)` and returns `"4242"`,
not the claimed `"Error 4242"`. -/
theorem c7_counterexample :
    get_error_message (.vInt 4242) = "4242" ∧
    get_error_message (.vInt 4242) ≠ "Error 4242" := by
  decide

/-- Claim C7, amended: for a single (non-list) integer code absent from the
static table, `get_error_message` returns `str(original)` (no `"Error "`
prefix); the `"Error <original>"` rendering happens only for unknown codes
inside a list. -/
theorem c7_unknown_code (n : Int) (h : lookupCode n = none) :
    get_error_message (.vInt n) = toString n ∧
    get_error_message (.vList [.vInt n]) = "Error " ++ toString n := by
  constructor
  · simp [get_error_message, parse_error_code, h, isTruthyCode, pyStr, ExcVal.isNone]
  · simp [get_error_message, parse_error_code, h, isTruthyCode, pyStr, pyReprList, pyRepr,
      intercalate_singleton]

/-- Witness for `c7_unknown_code` at the unknown code 4242. -/
theorem c7_unknown_code_witness :
    get_error_message (.vInt 4242) = toString (4242 : Int) ∧
    get_error_message (.vList [.vInt 4242]) = "Error " ++ toString (4242 : Int) :=
  c7_unknown_code 4242 (by decide)

/-! ## C8 -/

/-- Claim C8, counterexample: `format_error_message` on the empty list joins
zero resolved messages and returns the empty string, not `"Unknown error"`. -/
theorem c8_counterexample :
    format_error_message (.vList []) none = "" ∧
    format_error_message (.vList []) none ≠ "Unknown error" := by
  decide

/-- Claim C8, amended: only `get_error_message` maps the empty code list to
`"Unknown error"`; `format_error_message` (without a type tag) maps it to
the empty string. -/
theorem c8_empty_list :
    get_error_message (.vList []) = "Unknown error" ∧
    format_error_message (.vList []) none = "" := by
  decide

end Animate3D
namespace Animate3D

/-! ## C1 -/

/-- Claim C1: with both callbacks registered and no timeout, a run of the
poll loop over zero or more Progress responses followed by one terminal
(Success or Failure) response invokes the progress callback once per
Progress response in response order, then the result callback exactly once,
and then returns — no further event of either kind is produced. -/
theorem c1_poll_ordering (rid : String) (interval : Int) (progs : List JobStatus)
    (term : JobStatus) (k : Nat)
    (hp : ∀ js ∈ progs, js.status = some Status.progress)
    (ht : term.status = some Status.success ∨ term.status = some Status.failure) :
    pollJob rid true true interval none k (progs ++ [term]) =
      (progs.map (progressEventFor rid) ++ [resultEventFor rid term], .finished) := by
  induction progs generalizing k with
  | nil =>
    rcases ht with h | h <;> simp [pollJob, h]
  | cons js progs ih =>
    have hjs : js.status = some Status.progress := hp js (List.mem_cons_self js progs)
    have hp2 : ∀ j ∈ progs, j.status = some Status.progress := by
      intro j hj
      exact hp j (List.mem_cons_of_mem js hj)
    simp [pollJob, hjs, timeoutTruthy, ih hp2 (k := k + 1)]

/-- Witness for `c1_poll_ordering`: two Progress responses (25% and 100%)
then Success — the trace is ProgressEvent(25), ProgressEvent(100),
ResultEvent(success), and the loop finishes. -/
theorem c1_poll_ordering_witness :
    pollJob "j1" true true 5 none 0 [c1prog1, c1prog2, c1success] =
      ([.progressEv "j1" 25 (some 0), .progressEv "j1" 100 (some 0),
        .resultEv "j1" (some { input := [], output := some ["anim.fbx"] }) none], .finished) := by
  have h := c1_poll_ordering "j1" 5 [c1prog1, c1prog2] c1success 0
    (by intro js hjs; fin_cases hjs <;> rfl) (Or.inl rfl)
  simp only [List.cons_append, List.nil_append] at h
  rw [h]
  decide

end Animate3D
namespace Animate3D

/-! ## C3 -/

/-- Claim C3: for every Failure status response carrying a (non-None) raw
`exc_message`, the `JobError` delivered to the result callback carries
exactly one application of `format_error_message` to the raw message and
`exc_type` — the resolver runs once (inside `JobStatusDetails.from_dict`),
upstream of dispatch, so the callback never sees the raw code. -/
theorem c3_failure_resolved (rid : String) (pcb : Bool) (interval : Int)
    (timeout : Option Int) (k : Nat) (raw : RawStatus) (rd : RawDetails)
    (rest : List JobStatus)
    (hs : raw.status = some "FAILURE") (hd : raw.details = some rd)
    (hm : rd.exc_message.isNone = false) :
    pollJob rid pcb true interval timeout k (JobStatus.from_dict raw :: rest) =
      ([.resultEv rid none
        (some ⟨rd.exc_type, some (format_error_message rd.exc_message rd.exc_type)⟩)],
       .finished) := by
  simp [pollJob, JobStatus.from_dict, hs, hd, parseStatus, resultEventFor, mkJobError,
    JobStatusDetails.from_dict, hm]

/-- Witness for `c3_failure_resolved`: `exc_message=["101"]` with
`exc_type="CreditError"` reaches the callback as
`"CreditError: Error 101: Not enough credits"`. -/
theorem c3_failure_resolved_witness :
    pollJob "j3" true true 5 none 0 (JobStatus.from_dict c3rawStatus :: []) =
      ([.resultEv "j3" none
        (some ⟨some "CreditError", some "CreditError: Error 101: Not enough credits"⟩)],
       .finished) := by
  have h := c3_failure_resolved "j3" true 5 none 0 c3rawStatus c3rawDetails [] rfl rfl rfl
  rw [h]
  decide

/-! ## C5 -/

/-- Auxiliary timeout bound: if every response is non-terminal, the timeout
is positive, and enough cycles are supplied, the run raises on the first
cycle whose idealized elapsed time `k * interval` exceeds the timeout, so
the raise time lies in `(T, T + interval]`. -/
theorem pollJob_timeout_aux (rid : String) (pcb rcb : Bool) (interval T : Int)
    (hI : 0 < interval) (hT : 0 < T) :
    ∀ (responses : List JobStatus) (k : Nat),
      (∀ js ∈ responses, ¬(js.status = some Status.success ∨ js.status = some Status.failure)) →
      (k : Int) * interval ≤ T + interval →
      T < ((k : Int) + responses.length - 1) * interval →
      ∃ evs t, pollJob rid pcb rcb interval (some T) k responses = (evs, .timedOut rid t) ∧
        T < t ∧ t ≤ T + interval := by
  intro responses
  induction responses with
  | nil =>
    intro k _ hk hlt
    exfalso
    simp only [List.length_nil, Nat.cast_zero] at hlt
    nlinarith
  | cons js rest ih =>
    intro k hnt hk hlt
    have hjs := hnt js (List.mem_cons_self js rest)
    have htt : timeoutTruthy (some T) = true := by
      simp [timeoutTruthy]
      omega
    by_cases hko : (k : Int) * interval > T
    · refine ⟨(if js.status = some Status.progress then
          (if pcb then [progressEventFor rid js] else []) else []),
        (k : Int) * interval, ?_, hko, hk⟩
      simp [pollJob, if_neg hjs, htt, hko]
    · have hrest : ∀ j ∈ rest, ¬(j.status = some Status.success ∨ j.status = some Status.failure) := by
        intro j hj
        exact hnt j (List.mem_cons_of_mem js hj)
      have hk2 : ((k + 1 : Nat) : Int) * interval ≤ T + interval := by
        push_cast
        nlinarith
      have hlt2 : T < (((k + 1 : Nat) : Int) + rest.length - 1) * interval := by
        push_cast
        simp only [List.length_cons] at hlt
        push_cast at hlt
        nlinarith [hlt]
      obtain ⟨evs, t, heq, h1, h2⟩ := ih (k + 1) hrest hk2 hlt2
      refine ⟨(if js.status = some Status.progress then
          (if pcb then [progressEventFor rid js] else []) else []) ++ evs, t, ?_, h1, h2⟩
      simp [pollJob, if_neg hjs, htt, hko, heq]

/-- Claim C5: with a configured timeout `T > 0` and poll interval `I > 0`,
if no terminal status arrives, the loop raises `TimeoutError` carrying the
job id, at an (idealized) elapsed time `t` with `T < t ≤ T + I` — overshoot
bounded by one poll interval. (The deadline comparison is, by construction
of the loop, evaluated exactly once per cycle, after the dispatch steps.) -/
theorem c5_timeout_bound (rid : String) (pcb rcb : Bool) (interval T : Int)
    (responses : List JobStatus)
    (hI : 0 < interval) (hT : 0 < T)
    (hnt : ∀ js ∈ responses, ¬(js.status = some Status.success ∨ js.status = some Status.failure))
    (hlen : T < ((responses.length : Int) - 1) * interval) :
    ∃ evs t, pollJob rid pcb rcb interval (some T) 0 responses = (evs, .timedOut rid t) ∧
      T < t ∧ t ≤ T + interval := by
  exact pollJob_timeout_aux rid pcb rcb interval T hI hT responses 0 hnt
    (by push_cast; nlinarith) (by push_cast; nlinarith [hlen])

/-- Witness for `c5_timeout_bound`: timeout 7, interval 5, four Progress
responses — the loop times out at an elapsed time t with 7 < t ≤ 12. -/
theorem c5_timeout_bound_witness :
    ∃ evs t, pollJob "j5" true true 5 (some 7) 0 [c5prog, c5prog, c5prog, c5prog] =
      (evs, .timedOut "j5" t) ∧ 7 < t ∧ t ≤ 7 + 5 := by
  exact c5_timeout_bound "j5" true true 5 7 [c5prog, c5prog, c5prog, c5prog]
    (by norm_num) (by norm_num)
    (by intro js hjs; fin_cases hjs <;> simp [c5prog])
    (by norm_num)

/-! ## C10 -/

/-- Claim C10: a status-fetch entry whose status string is none of STARTING,
PROGRESS, SUCCESS, FAILURE, RETRY parses without an exception (the caught
`ValueError` leaves the status `None`), and the poll loop treats the
resulting `JobStatus` as non-terminal: the cycle dispatches no callback of
either kind and polling continues with the next cycle. -/
theorem c10_unknown_status (raw : RawStatus) (s : String) (rid : String)
    (pcb rcb : Bool) (interval : Int) (k : Nat) (rest : List JobStatus)
    (hs : raw.status = some s)
    (hu : ¬ s ∈ ["STARTING", "PROGRESS", "SUCCESS", "FAILURE", "RETRY"]) :
    (JobStatus.from_dict raw).status = none ∧
    pollJob rid pcb rcb interval none k (JobStatus.from_dict raw :: rest) =
      pollJob rid pcb rcb interval none (k + 1) rest := by
  simp only [List.mem_cons, List.mem_singleton, not_or] at hu
  obtain ⟨h1, h2, h3, h4, h5⟩ := hu
  have hps : parseStatus s = none := by
    simp [parseStatus, h1, h2, h3, h4, h5]
  have hst : (JobStatus.from_dict raw).status = none := by
    simp [JobStatus.from_dict, hs, hps]
  refine ⟨hst, ?_⟩
  simp [pollJob, hst, timeoutTruthy]

/-- Witness for `c10_unknown_status` at status string `"REVOKED"`: no
callback fires in that cycle and the loop proceeds to the next response. -/
theorem c10_unknown_status_witness :
    (JobStatus.from_dict c10raw).status = none ∧
    pollJob "j10" true true 5 none 0 (JobStatus.from_dict c10raw :: [c1success]) =
      pollJob "j10" true true 5 none 1 [c1success] := by
  exact c10_unknown_status c10raw "REVOKED" "j10" true true 5 0 [c1success] rfl (by decide)

end Animate3D
namespace Animate3D

/-- Reading `getD` after appending one cell, at an in-range index, is unchanged. -/
theorem getD_append_lt {α : Type} (l : List α) (x : α) (n : Nat) (d : α)
    (h : n < l.length) : (l ++ [x]).getD n d = l.getD n d := by
  simp [List.getD, List.getElem?_append_left h]

/-- Reading `getD` at the appended cell reads the new value. -/
theorem getD_append_self {α : Type} (l : List α) (x : α) (d : α) :
    (l ++ [x]).getD l.length d = x := by
  simp [List.getD, List.getElem?_append_right (Nat.le_refl _)]

/-- Reading `getD` after setting a different index is unchanged. -/
theorem getD_set_ne {α : Type} (l : List α) (i j : Nat) (x : α) (d : α)
    (h : i ≠ j) : (l.set i x).getD j d = l.getD j d := by
  simp [List.getD, List.getElem?_set_ne h]

/-- The encoding ignores the difference between the two falsy states of a
list-valued field (`None` vs explicitly-empty), and depends on the rest of
the record only through its value. -/
theorem to_params_list_listfields_congr (p : ProcessParams)
    (f1 f2 : Option (List String)) (m1 m2 : Option (List (List (String × String))))
    (hf : f1 = f2 ∨ (pyTruthyListOpt f1 = false ∧ pyTruthyListOpt f2 = false))
    (hm : m1 = m2 ∨ (pyTruthyListOpt m1 = false ∧ pyTruthyListOpt m2 = false)) :
    ProcessParams.to_params_list { p with formats := f1, _models := m1 } =
      ProcessParams.to_params_list { p with formats := f2, _models := m2 } := by
  rcases hf with rfl | ⟨hf1, hf2⟩ <;> rcases hm with rfl | ⟨hm1, hm2⟩ <;>
    simp [ProcessParams.to_params_list, entryIf, *]

/-- Two heap views encode a `ParamsRef` identically when the dereferenced
list fields agree up to falsiness and the scalar bases agree. -/
theorem encodeRef_congr (h1 h2 : Heap) (p q : ParamsRef)
    (hb : q.base = p.base)
    (hf : q.formatsRef.map (fun a => h2.strLists.getD a []) =
            p.formatsRef.map (fun a => h1.strLists.getD a []) ∨
          (pyTruthyListOpt (q.formatsRef.map (fun a => h2.strLists.getD a [])) = false ∧
           pyTruthyListOpt (p.formatsRef.map (fun a => h1.strLists.getD a [])) = false))
    (hm : q.modelsRef.map (fun b => (h2.dictLists.getD b []).map (fun d => h2.dicts.getD d [])) =
            p.modelsRef.map (fun b => (h1.dictLists.getD b []).map (fun d => h1.dicts.getD d [])) ∨
          (pyTruthyListOpt (q.modelsRef.map (fun b => (h2.dictLists.getD b []).map (fun d => h2.dicts.getD d []))) = false ∧
           pyTruthyListOpt (p.modelsRef.map (fun b => (h1.dictLists.getD b []).map (fun d => h1.dicts.getD d []))) = false)) :
    encodeRef h2 q = encodeRef h1 p := by
  unfold encodeRef derefParams
  rw [hb]
  exact to_params_list_listfields_congr p.base _ _ _ _ hf hm

/-- Claim C9, amended: re-encoding a fresh copy yields the identical
sequence; and mutating the copy's own (freshly allocated) list objects —
the `formats` list or the `_models` list itself — never changes the
original's encoding. (The dict elements inside a copied `_models` list are
however shared with the original; see the counterexample.) -/
theorem c9_copy_independence (h : Heap) (p : ParamsRef) (hwf : p.wfb h = true) :
    encodeRef (p.copy h).1 (p.copy h).2 = encodeRef h p ∧
    (∀ a v, (p.copy h).2.formatsRef = some a →
      encodeRef (Heap.setStrList (p.copy h).1 a v) p = encodeRef h p) ∧
    (∀ b w, (p.copy h).2.modelsRef = some b →
      encodeRef (Heap.setDictList (p.copy h).1 b w) p = encodeRef h p) := by
  obtain ⟨pb, pf, pm⟩ := p
  rcases pf with _ | a0 <;> rcases pm with _ | b0
  · -- neither list field set: copy changes nothing
    refine ⟨rfl, ?_, ?_⟩ <;> intro x v hx <;>
      simp [ParamsRef.copy, copyStrListField, copyDictListField] at hx
  · -- only `_models` set
    simp only [ParamsRef.wfb, Bool.and_eq_true, decide_eq_true_eq] at hwf
    have hb0 : b0 < h.dictLists.length := hwf.2
    by_cases hcm : h.dictLists.getD b0 [] = []
    · have hc : ParamsRef.copy h ⟨pb, none, some b0⟩ = (h, ⟨pb, none, none⟩) := by
        simp only [ParamsRef.copy, copyStrListField, copyDictListField]
        try dsimp only
        rw [if_pos hcm]
      refine ⟨?_, ?_, ?_⟩
      · rw [hc]
        apply encodeRef_congr
        · rfl
        · exact Or.inl rfl
        · refine Or.inr ⟨by simp [pyTruthyListOpt], ?_⟩
          simp only [Option.map_some', pyTruthyListOpt]
          rw [hcm]
          rfl
      · intro a v ha
        rw [hc] at ha
        simp at ha
      · intro b w hb
        rw [hc] at hb
        simp at hb
    · have hc : ParamsRef.copy h ⟨pb, none, some b0⟩ =
          ({ strLists := h.strLists, dictLists := h.dictLists ++ [h.dictLists.getD b0 []],
             dicts := h.dicts },
           ⟨pb, none, some h.dictLists.length⟩) := by
        simp only [ParamsRef.copy, copyStrListField, copyDictListField]
        try dsimp only
        rw [if_neg hcm]
      refine ⟨?_, ?_, ?_⟩
      · rw [hc]
        apply encodeRef_congr
        · rfl
        · exact Or.inl rfl
        · left
          simp only [Option.map_some']
          try dsimp only
          rw [getD_append_self]
      · intro a v ha
        rw [hc] at ha
        simp at ha
      · intro b w hb
        rw [hc] at hb
        dsimp only at hb
        have hb2 : h.dictLists.length = b := Option.some.inj hb
        rw [hc, ← hb2]
        apply encodeRef_congr
        · rfl
        · exact Or.inl rfl
        · left
          simp only [Option.map_some']
          dsimp only [Heap.setDictList]
          try dsimp only
          rw [getD_set_ne _ _ _ _ _ (by omega), getD_append_lt _ _ _ _ hb0]
  · -- only `formats` set
    simp only [ParamsRef.wfb, Bool.and_eq_true, decide_eq_true_eq] at hwf
    have ha0 : a0 < h.strLists.length := hwf.1
    by_cases hcf : h.strLists.getD a0 [] = []
    · have hc : ParamsRef.copy h ⟨pb, some a0, none⟩ = (h, ⟨pb, none, none⟩) := by
        simp only [ParamsRef.copy, copyStrListField, copyDictListField]
        rw [if_pos hcf]
      refine ⟨?_, ?_, ?_⟩
      · rw [hc]
        apply encodeRef_congr
        · rfl
        · refine Or.inr ⟨by simp [pyTruthyListOpt], ?_⟩
          simp only [Option.map_some', pyTruthyListOpt]
          rw [hcf]
          rfl
        · exact Or.inl rfl
      · intro a v ha
        rw [hc] at ha
        simp at ha
      · intro b w hb
        rw [hc] at hb
        simp at hb
    · have hc : ParamsRef.copy h ⟨pb, some a0, none⟩ =
          ({ strLists := h.strLists ++ [h.strLists.getD a0 []], dictLists := h.dictLists,
             dicts := h.dicts },
           ⟨pb, some h.strLists.length, none⟩) := by
        simp only [ParamsRef.copy, copyStrListField, copyDictListField]
        rw [if_neg hcf]
      refine ⟨?_, ?_, ?_⟩
      · rw [hc]
        apply encodeRef_congr
        · rfl
        · left
          simp only [Option.map_some']
          try dsimp only
          rw [getD_append_self]
        · exact Or.inl rfl
      · intro a v ha
        rw [hc] at ha
        dsimp only at ha
        have ha2 : h.strLists.length = a := Option.some.inj ha
        rw [hc, ← ha2]
        apply encodeRef_congr
        · rfl
        · left
          simp only [Option.map_some']
          dsimp only [Heap.setStrList]
          try dsimp only
          rw [getD_set_ne _ _ _ _ _ (by omega), getD_append_lt _ _ _ _ ha0]
        · exact Or.inl rfl
      · intro b w hb
        rw [hc] at hb
        simp at hb
  · -- both list fields set
    simp only [ParamsRef.wfb, Bool.and_eq_true, decide_eq_true_eq] at hwf
    have ha0 : a0 < h.strLists.length := hwf.1
    have hb0 : b0 < h.dictLists.length := hwf.2
    by_cases hcf : h.strLists.getD a0 [] = [] <;>
      by_cases hcm : h.dictLists.getD b0 [] = []
    · have hc : ParamsRef.copy h ⟨pb, some a0, some b0⟩ = (h, ⟨pb, none, none⟩) := by
        simp only [ParamsRef.copy, copyStrListField, copyDictListField]
        rw [if_pos hcf]
        try dsimp only
        rw [if_pos hcm]
      refine ⟨?_, ?_, ?_⟩
      · rw [hc]
        apply encodeRef_congr
        · rfl
        · refine Or.inr ⟨by simp [pyTruthyListOpt], ?_⟩
          simp only [Option.map_some', pyTruthyListOpt]
          rw [hcf]
          rfl
        · refine Or.inr ⟨by simp [pyTruthyListOpt], ?_⟩
          simp only [Option.map_some', pyTruthyListOpt]
          rw [hcm]
          rfl
      · intro a v ha
        rw [hc] at ha
        simp at ha
      · intro b w hb
        rw [hc] at hb
        simp at hb
    · have hc : ParamsRef.copy h ⟨pb, some a0, some b0⟩ =
          ({ strLists := h.strLists, dictLists := h.dictLists ++ [h.dictLists.getD b0 []],
             dicts := h.dicts },
           ⟨pb, none, some h.dictLists.length⟩) := by
        simp only [ParamsRef.copy, copyStrListField, copyDictListField]
        rw [if_pos hcf]
        try dsimp only
        rw [if_neg hcm]
      refine ⟨?_, ?_, ?_⟩
      · rw [hc]
        apply encodeRef_congr
        · rfl
        · refine Or.inr ⟨by simp [pyTruthyListOpt], ?_⟩
          simp only [Option.map_some', pyTruthyListOpt]
          rw [hcf]
          rfl
        · left
          simp only [Option.map_some']
          try dsimp only
          rw [getD_append_self]
      · intro a v ha
        rw [hc] at ha
        simp at ha
      · intro b w hb
        rw [hc] at hb
        dsimp only at hb
        have hb2 : h.dictLists.length = b := Option.some.inj hb
        rw [hc, ← hb2]
        apply encodeRef_congr
        · rfl
        · refine Or.inr ⟨?_, ?_⟩
          · simp only [Option.map_some', pyTruthyListOpt]
            dsimp only [Heap.setDictList]
            try dsimp only
            rw [hcf]
            rfl
          · simp only [Option.map_some', pyTruthyListOpt]
            rw [hcf]
            rfl
        · left
          simp only [Option.map_some']
          dsimp only [Heap.setDictList]
          try dsimp only
          rw [getD_set_ne _ _ _ _ _ (by omega), getD_append_lt _ _ _ _ hb0]
    · have hc : ParamsRef.copy h ⟨pb, some a0, some b0⟩ =
          ({ strLists := h.strLists ++ [h.strLists.getD a0 []], dictLists := h.dictLists,
             dicts := h.dicts },
           ⟨pb, some h.strLists.length, none⟩) := by
        simp only [ParamsRef.copy, copyStrListField, copyDictListField]
        rw [if_neg hcf]
        try dsimp only
        rw [if_pos hcm]
      refine ⟨?_, ?_, ?_⟩
      · rw [hc]
        apply encodeRef_congr
        · rfl
        · left
          simp only [Option.map_some']
          try dsimp only
          rw [getD_append_self]
        · refine Or.inr ⟨by simp [pyTruthyListOpt], ?_⟩
          simp only [Option.map_some', pyTruthyListOpt]
          rw [hcm]
          rfl
      · intro a v ha
        rw [hc] at ha
        dsimp only at ha
        have ha2 : h.strLists.length = a := Option.some.inj ha
        rw [hc, ← ha2]
        apply encodeRef_congr
        · rfl
        · left
          simp only [Option.map_some']
          dsimp only [Heap.setStrList]
          try dsimp only
          rw [getD_set_ne _ _ _ _ _ (by omega), getD_append_lt _ _ _ _ ha0]
        · refine Or.inr ⟨?_, ?_⟩
          · simp only [Option.map_some', pyTruthyListOpt]
            dsimp only [Heap.setStrList]
            try dsimp only
            rw [hcm]
            rfl
          · simp only [Option.map_some', pyTruthyListOpt]
            rw [hcm]
            rfl
      · intro b w hb
        rw [hc] at hb
        simp at hb
    · have hc : ParamsRef.copy h ⟨pb, some a0, some b0⟩ =
          ({ strLists := h.strLists ++ [h.strLists.getD a0 []],
             dictLists := h.dictLists ++ [h.dictLists.getD b0 []],
             dicts := h.dicts },
           ⟨pb, some h.strLists.length, some h.dictLists.length⟩) := by
        simp only [ParamsRef.copy, copyStrListField, copyDictListField]
        rw [if_neg hcf]
        try dsimp only
        rw [if_neg hcm]
      refine ⟨?_, ?_, ?_⟩
      · rw [hc]
        apply encodeRef_congr
        · rfl
        · left
          simp only [Option.map_some']
          try dsimp only
          rw [getD_append_self]
        · left
          simp only [Option.map_some']
          try dsimp only
          rw [getD_append_self]
      · intro a v ha
        rw [hc] at ha
        dsimp only at ha
        have ha2 : h.strLists.length = a := Option.some.inj ha
        rw [hc, ← ha2]
        apply encodeRef_congr
        · rfl
        · left
          simp only [Option.map_some']
          dsimp only [Heap.setStrList]
          try dsimp only
          rw [getD_set_ne _ _ _ _ _ (by omega), getD_append_lt _ _ _ _ ha0]
        · left
          simp only [Option.map_some']
          dsimp only [Heap.setStrList]
          try dsimp only
          rw [getD_append_lt _ _ _ _ hb0]
      · intro b w hb
        rw [hc] at hb
        dsimp only at hb
        have hb2 : h.dictLists.length = b := Option.some.inj hb
        rw [hc, ← hb2]
        apply encodeRef_congr
        · rfl
        · left
          simp only [Option.map_some']
          dsimp only [Heap.setDictList]
          try dsimp only
          rw [getD_append_lt _ _ _ _ ha0]
        · left
          simp only [Option.map_some']
          dsimp only [Heap.setDictList]
          try dsimp only
          rw [getD_set_ne _ _ _ _ _ (by omega), getD_append_lt _ _ _ _ hb0]

end Animate3D
namespace Animate3D

/-- Witness for `c9_copy_independence` on `c9heap`/`c9params`: the copy
re-encodes identically, and mutating the copy's fresh formats list leaves
the original's encoding unchanged. -/
theorem c9_copy_independence_witness :
    encodeRef (c9params.copy c9heap).1 (c9params.copy c9heap).2 = encodeRef c9heap c9params ∧
    encodeRef (Heap.setStrList (c9params.copy c9heap).1 1 ["x"]) c9params =
      encodeRef c9heap c9params :=
  ⟨(c9_copy_independence c9heap c9params (by decide)).1,
   (c9_copy_independence c9heap c9params (by decide)).2.1 1 ["x"] (by decide)⟩

/-- Claim C9, counterexample: `copy` shallow-copies the `_models` list, so
the copy's `_models` cell (address 1) holds the same dict reference 0 as the
original's cell (address 0) — shared mutable backing storage — and mutating
that dict in place (Python `q._models[0]["modelId"] = "b"`) changes the
ORIGINAL object's encoding. -/
theorem c9_counterexample :
    (c9params.copy c9heap).2.modelsRef = some 1 ∧
    (c9params.copy c9heap).1.dictLists.getD 1 [] = [0] ∧
    (c9params.copy c9heap).1.dictLists.getD 0 [] = [0] ∧
    encodeRef (Heap.setDict (c9params.copy c9heap).1 0
        [("trackingId", "001"), ("modelId", "b")]) c9params ≠
      encodeRef (c9params.copy c9heap).1 c9params := by
  decide

end Animate3D
